import Mathlib

/-!
Verification of the persistent-state core of the AI-news digest pipeline
(`optimized_ai_news.py`: `ArticleCache`, `StateTracker`; `app.py`:
`run_report_generation`).

Modelling conventions for the shallow embedding:

* Time is `Int`, seconds since the Unix epoch; `datetime.now()` becomes an
  explicit `now : Time` argument, `timedelta(days := n)` becomes `n * day`.
* A timestamp string stored in JSON is modelled by `TimeStr := Option Time`:
  `some t` is a valid ISO-8601 string denoting instant `t`, `none` is a
  string on which `datetime.fromisoformat` raises `ValueError`.
* A JSON object is an ordered association list `List (String × α)` with
  Python-dict semantics: lookup finds the unique binding of a key,
  assignment overwrites in place or appends a fresh key at the end.
* The backing file of a ledger is a `FileState`: missing, present but
  rejected by `json.load`, or present with parsed content.
* Methods that mutate `self` return the new state explicitly; methods that
  write the ledger to disk additionally return the list of full-ledger
  snapshots written, in order, so that the number of disk writes is visible.
* `hashlib.md5(url.encode()).hexdigest()` is modelled by an injective
  tagging function: only determinism and injectivity of the digest are
  relevant to the ledger logic.
-/

namespace AINews

/-- Time in seconds since the Unix epoch. -/
abbrev Time := Int

/-- One day, in seconds (`timedelta(days=1)`). -/
def day : Int := 86400

/-- A timestamp string as persisted in JSON: `some t` is a valid ISO-8601
string denoting `t`; `none` is a string that `datetime.fromisoformat`
rejects. -/
abbrev TimeStr := Option Time

/-- `datetime.fromisoformat`: parses a timestamp string, raising
`ValueError` (modelled as `Except.error ()`) on invalid input. -/
def fromisoformat : TimeStr → Except Unit Time
  | none => .error ()
  | some t => .ok t

/-- The instant denoted by the literal `'2020-01-01'`, the default used by
`ArticleCache.get_summary` when the `cached_date` field is absent. -/
def iso20200101 : Time := 1577836800

/-- Python-dict lookup `d.get(k)` on an ordered association list. -/
def dictGet {α : Type} : List (String × α) → String → Option α
  | [], _ => none
  | (k', v) :: rest, k => if k' = k then some v else dictGet rest k

/-- Python-dict assignment `d[k] = v`: overwrites the existing binding in
place, otherwise appends the new key at the end (insertion order). -/
def dictInsert {α : Type} : List (String × α) → String → α → List (String × α)
  | [], k, v => [(k, v)]
  | (k', v') :: rest, k, v =>
      if k' = k then (k, v) :: rest else (k', v') :: dictInsert rest k v

/-- The state of a JSON backing file on disk: absent, present but rejected
by `json.load`, or present with parsed content. -/
inductive FileState (α : Type) where
  | missing
  | unparsable
  | parsed (data : α)

/-- One entry of the summary cache, the JSON object
`{'summary': ..., 'cached_date': ...}`; `cached_date = none` models an
entry whose JSON object lacks the `cached_date` field. -/
structure CacheEntry where
  summary : String
  cached_date : Option TimeStr
deriving Repr, DecidableEq

/-- The in-memory content of `article_cache.json`: md5-key → entry. -/
abbrev CacheData := List (String × CacheEntry)

/-- `ArticleCache`: the in-memory summary cache (`self.cache`). -/
structure ArticleCache where
  cache : CacheData
deriving Repr, DecidableEq

/-- `ArticleCache.load_cache`: returns the parsed file content; a missing
file or any `json.load` failure (caught by the bare `except:`) yields the
empty mapping, never an error. -/
def load_cache : FileState CacheData → CacheData
  | .missing => []
  | .unparsable => []
  | .parsed d => d

/-- `ArticleCache.get_cache_key`: `hashlib.md5(url.encode()).hexdigest()`,
modelled as an injective deterministic key derivation from the URL. -/
def get_cache_key (url : String) : String := "md5:" ++ url

/-- `ArticleCache.get_summary`: looks the URL's key up; if found, parses the
`cached_date` field (defaulting to `'2020-01-01'` when absent — an invalid
stored string makes `fromisoformat` raise, uncaught) and returns the stored
summary only when it is less than 7 days old.  The method never assigns to
`self.cache`, so the state component of the result is the input state. -/
def get_summary (c : ArticleCache) (now : Time) (url : String) :
    Except Unit (Option String) × ArticleCache :=
  let key := get_cache_key url
  match dictGet c.cache key with
  | none => (.ok none, c)
  | some item =>
      match fromisoformat (item.cached_date.getD (some iso20200101)) with
      | .error e => (.error e, c)
      | .ok cached_date =>
          if now - cached_date < 7 * day then (.ok (some item.summary), c)
          else (.ok none, c)

/-- `ArticleCache.set_summary`: overwrites the URL's entry with the current
timestamp, then `save_cache` persists the full ledger once (the second
component lists the disk writes performed, in order). -/
def set_summary (c : ArticleCache) (now : Time) (url : String) (s : String) :
    ArticleCache × List CacheData :=
  let key := get_cache_key url
  let cache' := dictInsert c.cache key { summary := s, cached_date := some (some now) }
  (⟨cache'⟩, [cache'])

/-- The in-memory content of `sent_articles.json`: URL → timestamp string. -/
abbrev TrackerData := List (String × TimeStr)

/-- `StateTracker`: the in-memory sent-articles ledger (`self.sent_urls`). -/
structure StateTracker where
  sent_urls : TrackerData
deriving Repr, DecidableEq

/-- The dict comprehension in `StateTracker.load_sent_articles`:
`{url: sd for url, sd in data.items() if fromisoformat(sd) > cutoff}`.
A `ValueError` from `fromisoformat` on any record propagates
(`Except.error`), aborting the whole comprehension. -/
def pruneRecords (cutoff : Time) : TrackerData → Except Unit TrackerData
  | [] => .ok []
  | (url, sd) :: rest =>
      match fromisoformat sd with
      | .error e => .error e
      | .ok t =>
          match pruneRecords cutoff rest with
          | .error e => .error e
          | .ok r => .ok (if cutoff < t then (url, sd) :: r else r)

/-- `StateTracker.load_sent_articles`: loads the ledger, dropping every
record whose timestamp is not strictly newer than `now - 30 days`; a
missing file, a `json.load` failure, or a `fromisoformat` failure on any
record (all caught by the bare `except:`) yields the empty mapping. -/
def load_sent_articles (fs : FileState TrackerData) (now : Time) : TrackerData :=
  match fs with
  | .missing => []
  | .unparsable => []
  | .parsed data =>
      match pruneRecords (now - 30 * day) data with
      | .ok kept => kept
      | .error _ => []

/-- `StateTracker.is_article_sent`: membership test on the in-memory ledger. -/
def is_article_sent (tr : StateTracker) (url : String) : Bool :=
  (dictGet tr.sent_urls url).isSome

/-- `StateTracker.mark_articles_sent`: computes `current_time` once before
the loop, stamps it on every URL of the batch, then `save_state` persists
the full ledger once after the loop (the second component lists the disk
writes performed, in order). -/
def mark_articles_sent (tr : StateTracker) (urls : List String) (now : Time) :
    StateTracker × List TrackerData :=
  let current_time : TimeStr := some now
  let final := urls.foldl (fun m url => dictInsert m url current_time) tr.sent_urls
  (⟨final⟩, [final])

/-- `StateTracker.save_state`: writes the full in-memory ledger to disk
(the result lists the disk writes performed). -/
def save_state (tr : StateTracker) : List TrackerData := [tr.sent_urls]

/-- An RSS article as far as the tracker is concerned: the dict fields used
by `filter_new_articles` (`article['link']`) plus its title. -/
structure Article where
  title : String
  link : String
deriving Repr, DecidableEq

/-- `StateTracker.filter_new_articles`: keeps the articles whose link is not
marked sent, in input order. -/
def filter_new_articles (tr : StateTracker) (articles : List Article) : List Article :=
  articles.filter (fun article => !is_article_sent tr article.link)

/-- The message of the exception raised by `app.run_report_generation` when
the API key is absent or a placeholder. -/
def missingKeyMessage : String :=
  "FIREWORKS_API_KEY not set! Please create a .env file with your API key."

/-- The observable outcome of one `run_report_generation` call: the error
string recorded by `report_manager.finish_generation` (if any) and the
number of network calls performed during the run. -/
structure RunResult where
  error : Option String
  network_calls : Nat
deriving Repr, DecidableEq

/-- `app.run_report_generation`: inside the `try`, it starts the status
record, checks `FIREWORKS_API_KEY` (raising a descriptive exception when
the key is falsy or the placeholder) and only then runs the pipeline; the
`except` records the exception message via `finish_generation(error=...)`.
Neither `start_generation` nor the stdout-capture setup performs network
I/O, so every network call of the run happens inside the pipeline call,
whose behaviour is abstracted by the arguments `pipelineCalls` (network
calls it performs) and `pipelineError` (error it raises, if any). -/
def run_report_generation (key : Option String) (pipelineCalls : Nat)
    (pipelineError : Option String) : RunResult :=
  let keyInvalid : Bool :=
    match key with
    | none => true
    | some k => k = "" || k = "your_fireworks_api_key_here"
  if keyInvalid then { error := some missingKeyMessage, network_calls := 0 }
  else { error := pipelineError, network_calls := pipelineCalls }

/-! ### Dictionary lemmas -/

theorem dictGet_dictInsert {α : Type} (m : List (String × α)) (k q : String) (v : α) :
    dictGet (dictInsert m k v) q = if k = q then some v else dictGet m q := by
  induction m with
  | nil => simp [dictInsert, dictGet]
  | cons p rest ih =>
      obtain ⟨k', v'⟩ := p
      by_cases h1 : k' = k
      · subst h1
        by_cases h2 : k' = q <;> simp [dictInsert, dictGet, h2]
      · by_cases h2 : k' = q
        · subst h2
          have hkq : ¬k = k' := fun hh => h1 hh.symm
          simp [dictInsert, dictGet, h1, hkq]
        · simp [dictInsert, dictGet, h1, h2, ih]

theorem dictGet_eq_none_iff {α : Type} (m : List (String × α)) (k : String) :
    dictGet m k = none ↔ ∀ v, (k, v) ∉ m := by
  induction m with
  | nil => simp [dictGet]
  | cons p rest ih =>
      obtain ⟨k', v'⟩ := p
      by_cases h : k' = k
      · subst h
        simp only [dictGet, if_pos rfl]
        constructor
        · intro hcontr
          exact Option.noConfusion hcontr
        · intro hall
          exact absurd (List.mem_cons_self (k', v') rest) (hall v')
      · simp only [dictGet, if_neg h, ih, List.mem_cons]
        constructor
        · intro hall v hv
          rcases hv with heq | hmem
          · exact h (congrArg Prod.fst heq).symm
          · exact hall v hmem
        · intro hall v hv
          exact hall v (Or.inr hv)

theorem dictGet_foldl_insert {α : Type} (urls : List String)
    (m : List (String × α)) (v : α) (u : String) :
    dictGet (urls.foldl (fun acc url => dictInsert acc url v) m) u
      = if u ∈ urls then some v else dictGet m u := by
  induction urls generalizing m with
  | nil => simp
  | cons url rest ih =>
      simp only [List.foldl_cons, ih, dictGet_dictInsert, List.mem_cons]
      by_cases h1 : u ∈ rest
      · simp [h1]
      · by_cases h2 : u = url
        · simp [h1, h2]
        · have h3 : ¬url = u := fun hh => h2 hh.symm
          simp [h1, h2, h3]

/-! ### Pruning lemmas -/

theorem pruneRecords_ok (cutoff : Time) (data : TrackerData)
    (hwf : ∀ p ∈ data, p.2.isSome) :
    pruneRecords cutoff data
      = .ok (data.filter (fun p => p.2.any (fun t => decide (cutoff < t)))) := by
  induction data with
  | nil => simp [pruneRecords]
  | cons p rest ih =>
      obtain ⟨url, sd⟩ := p
      have hp : sd.isSome := hwf (url, sd) (List.mem_cons_self _ _)
      obtain ⟨t, rfl⟩ := Option.isSome_iff_exists.mp hp
      have ihr := ih (fun q hq => hwf q (List.mem_cons_of_mem _ hq))
      by_cases h : cutoff < t <;>
        simp [pruneRecords, fromisoformat, ihr, Option.any, h, List.filter_cons]

theorem pruneRecords_error (cutoff : Time) (data : TrackerData)
    (hbad : ∃ p ∈ data, p.2 = none) :
    pruneRecords cutoff data = .error () := by
  induction data with
  | nil => simp at hbad
  | cons p rest ih =>
      obtain ⟨url, sd⟩ := p
      obtain ⟨q, hq, hqnone⟩ := hbad
      rcases List.mem_cons.mp hq with heq | hmem
      · subst heq
        simp only at hqnone
        subst hqnone
        simp [pruneRecords, fromisoformat]
      · have ihr := ih ⟨q, hmem, hqnone⟩
        cases sd with
        | none => simp [pruneRecords, fromisoformat]
        | some t => simp [pruneRecords, fromisoformat, ihr]

/-! ### Claim theorems -/

/-- C1: for every URL and summary string, `set_summary(id, s)` followed by
`get_summary(id)` with less than 7 days elapsed between the two calls
returns `s`. -/
theorem cache_set_then_get_roundtrip (c : ArticleCache) (url s : String)
    (now1 now2 : Time) (h : now2 - now1 < 7 * day) :
    (get_summary (set_summary c now1 url s).1 now2 url).1 = .ok (some s) := by
  simp [get_summary, set_summary, dictGet_dictInsert, fromisoformat, h]

theorem cache_set_then_get_roundtrip_witness :
    (100 : Time) - 0 < 7 * day ∧
    (get_summary (set_summary ⟨[]⟩ 0 "https://x/a" "an LLM summary").1 100 "https://x/a").1
      = .ok (some "an LLM summary") :=
  ⟨by decide, cache_set_then_get_roundtrip ⟨[]⟩ "https://x/a" "an LLM summary" 0 100 (by decide)⟩

/-- C2: a cache entry whose timestamp is more than 7 days old is masked on
read (`get_summary` returns `None`), and the `get` operation does not
remove the expired entry from the underlying cache mapping. -/
theorem cache_expired_entry_masked_not_removed (c : ArticleCache) (url : String)
    (now t : Time) (e : CacheEntry)
    (hfound : dictGet c.cache (get_cache_key url) = some e)
    (hdate : e.cached_date = some (some t))
    (hold : 7 * day < now - t) :
    (get_summary c now url).1 = .ok none ∧
    dictGet (get_summary c now url).2.cache (get_cache_key url) = some e := by
  have hlt : ¬(now - t < 7 * day) := lt_asymm hold
  simp [get_summary, hfound, hdate, fromisoformat, hlt]

/-- A concrete cache holding one entry written at time `0`. -/
def staleCache : ArticleCache :=
  ⟨[(get_cache_key "https://x/a", { summary := "old summary", cached_date := some (some 0) })]⟩

theorem cache_expired_entry_masked_not_removed_witness :
    (7 : Int) * day < 10 * day - 0 ∧
    (get_summary staleCache (10 * day) "https://x/a").1 = .ok none ∧
    dictGet (get_summary staleCache (10 * day) "https://x/a").2.cache (get_cache_key "https://x/a")
      = some { summary := "old summary", cached_date := some (some 0) } := by
  have h := cache_expired_entry_masked_not_removed staleCache "https://x/a" (10 * day) 0
    { summary := "old summary", cached_date := some (some 0) }
    (by decide) (by decide) (by decide)
  exact ⟨by decide, h.1, h.2⟩

/-- C10: a cache entry that lacks the `cached_date` field is treated as
dated `2020-01-01`, so for any current time after 2020-01-08 `get_summary`
returns `None` rather than raising. -/
theorem cache_missing_date_field_defaults_to_2020 (c : ArticleCache) (url : String)
    (now : Time) (e : CacheEntry)
    (hfound : dictGet c.cache (get_cache_key url) = some e)
    (hnodate : e.cached_date = none)
    (hnow : iso20200101 + 7 * day < now) :
    (get_summary c now url).1 = .ok none := by
  have hlt : ¬(now - iso20200101 < 7 * day) := by linarith
  simp [get_summary, hfound, hnodate, fromisoformat, hlt]

/-- A concrete cache holding one entry whose JSON object has no
`cached_date` field. -/
def datelessCache : ArticleCache :=
  ⟨[(get_cache_key "https://x/a", { summary := "undated summary", cached_date := none })]⟩

theorem cache_missing_date_field_defaults_to_2020_witness :
    iso20200101 + 7 * day < iso20200101 + 8 * day ∧
    (get_summary datelessCache (iso20200101 + 8 * day) "https://x/a").1 = .ok none :=
  ⟨by decide,
   cache_missing_date_field_defaults_to_2020 datelessCache "https://x/a"
     (iso20200101 + 8 * day) { summary := "undated summary", cached_date := none }
     (by decide) (by decide) (by decide)⟩

/-- C6: a backing file that is missing or does not parse as JSON yields an
empty in-memory ledger for both the cache and the tracker, with no error
surfaced. -/
theorem missing_or_unparsable_file_yields_empty_state (now : Time) :
    load_cache .missing = [] ∧ load_cache .unparsable = [] ∧
    load_sent_articles .missing now = [] ∧ load_sent_articles .unparsable now = [] :=
  ⟨rfl, rfl, rfl, rfl⟩

/-- C7: when `FIREWORKS_API_KEY` is absent from the environment, the run
fails with the descriptive error message and performs zero network calls,
whatever the pipeline would have done; the function still returns a normal
status record, so the absence is not fatal to the process. -/
theorem missing_api_key_aborts_run_before_network (pipelineCalls : Nat)
    (pipelineError : Option String) :
    run_report_generation none pipelineCalls pipelineError
      = { error := some missingKeyMessage, network_calls := 0 } := rfl

/-- C3: loading a well-formed persisted tracker ledger (every timestamp a
valid ISO string, keys unique as in a JSON object) keeps exactly the records
with `now - sentAt < 30 days`; a record 30 days old or older is absent after
load, `is_article_sent` returns false for its URL, and the URL is absent
from any subsequent save of the loaded ledger. -/
theorem tracker_load_prunes_thirty_day_old_records (data : TrackerData) (now : Time)
    (hwf : ∀ p ∈ data, p.2.isSome)
    (hnd : (data.map Prod.fst).Nodup) :
    load_sent_articles (.parsed data) now
      = data.filter (fun p => p.2.any (fun t => decide (now - t < 30 * day))) ∧
    ∀ url t, (url, some t) ∈ data → 30 * day ≤ now - t →
      is_article_sent ⟨load_sent_articles (.parsed data) now⟩ url = false ∧
      ∀ d ∈ save_state ⟨load_sent_articles (.parsed data) now⟩, dictGet d url = none := by
  have hiff : ∀ t : Time, (now - 30 * day < t) ↔ (now - t < 30 * day) := by
    intro t
    constructor <;> intro <;> linarith
  have hfun : ∀ p ∈ data,
      (p.2.any (fun t => decide (now - 30 * day < t)))
        = (p.2.any (fun t => decide (now - t < 30 * day))) := by
    intro p _
    cases hp : p.2 with
    | none => rfl
    | some t =>
        simp only [Option.any]
        exact decide_eq_decide.mpr (hiff t)
  have h1 : load_sent_articles (.parsed data) now
      = data.filter (fun p => p.2.any (fun t => decide (now - t < 30 * day))) := by
    simp only [load_sent_articles, pruneRecords_ok (now - 30 * day) data hwf]
    exact List.filter_congr hfun
  refine ⟨h1, ?_⟩
  intro url t hmem hage
  have hnone : dictGet (load_sent_articles (.parsed data) now) url = none := by
    rw [h1, dictGet_eq_none_iff]
    intro v hv
    have hv' := List.mem_filter.mp hv
    have heq : (url, v) = (url, some t) :=
      List.inj_on_of_nodup_map hnd hv'.1 hmem rfl
    have hvt : v = some t := congrArg Prod.snd heq
    subst hvt
    have hfresh : now - t < 30 * day := by
      have := hv'.2
      simp only [Option.any, decide_eq_true_eq] at this
      exact this
    linarith
  refine ⟨?_, ?_⟩
  · simp [is_article_sent, hnone]
  · intro d hd
    have hde : d = load_sent_articles (.parsed data) now := by
      simpa [save_state] using hd
    rw [hde]
    exact hnone

theorem tracker_load_prunes_thirty_day_old_records_witness :
    (∀ p ∈ [("https://x/a", some (99 * day)), ("https://x/b", some (50 * day))],
      (Prod.snd p).isSome) ∧
    (List.map Prod.fst
      [("https://x/a", (some (99 * day) : TimeStr)), ("https://x/b", some (50 * day))]).Nodup ∧
    load_sent_articles
        (.parsed [("https://x/a", some (99 * day)), ("https://x/b", some (50 * day))]) (100 * day)
      = List.filter (fun p => (Prod.snd p).any (fun t => decide (100 * day - t < 30 * day)))
          [("https://x/a", some (99 * day)), ("https://x/b", some (50 * day))] :=
  ⟨by decide, by decide,
   (tracker_load_prunes_thirty_day_old_records
     [("https://x/a", some (99 * day)), ("https://x/b", some (50 * day))] (100 * day)
     (by decide) (by decide)).1⟩

/-- C4: `filter_new_articles` returns the order-preserving subsequence of
the input of exactly the articles whose link is not in the sent ledger; in
particular, after `mark_articles_sent ["https://x/b", "https://x/c"]`,
filtering a list with links `https://x/b` and `https://x/d` keeps only the
latter article, in its original position. -/
theorem filter_new_articles_keeps_unsent_in_order (tr : StateTracker)
    (articles : List Article) (now : Time) (a1 a2 : Article)
    (h1 : a1.link = "https://x/b") (h2 : a2.link = "https://x/d") :
    (filter_new_articles tr articles).Sublist articles ∧
    (∀ a, a ∈ filter_new_articles tr articles
      ↔ a ∈ articles ∧ is_article_sent tr a.link = false) ∧
    filter_new_articles
      (mark_articles_sent ⟨[]⟩ ["https://x/b", "https://x/c"] now).1 [a1, a2] = [a2] := by
  refine ⟨List.filter_sublist articles, ?_, ?_⟩
  · intro a
    simp [filter_new_articles, List.mem_filter]
  · simp [filter_new_articles, mark_articles_sent, is_article_sent, dictInsert, dictGet,
      List.filter, h1, h2]

theorem filter_new_articles_keeps_unsent_in_order_witness :
    Article.link { title := "B", link := "https://x/b" } = "https://x/b" ∧
    Article.link { title := "D", link := "https://x/d" } = "https://x/d" ∧
    filter_new_articles (mark_articles_sent ⟨[]⟩ ["https://x/b", "https://x/c"] 0).1
        [{ title := "B", link := "https://x/b" }, { title := "D", link := "https://x/d" }]
      = [{ title := "D", link := "https://x/d" }] :=
  ⟨rfl, rfl,
   (filter_new_articles_keeps_unsent_in_order ⟨[]⟩ [] 0
     { title := "B", link := "https://x/b" } { title := "D", link := "https://x/d" }
     rfl rfl).2.2⟩

/-- C5: `mark_articles_sent` stamps the current time on every URL of the
batch, leaves every other record unchanged, and persists the full ledger to
disk exactly once after the whole batch. -/
theorem mark_articles_sent_stamps_batch_single_write (tr : StateTracker)
    (urls : List String) (now : Time) :
    (mark_articles_sent tr urls now).2.length = 1 ∧
    (mark_articles_sent tr urls now).2 = [(mark_articles_sent tr urls now).1.sent_urls] ∧
    (∀ u ∈ urls, dictGet (mark_articles_sent tr urls now).1.sent_urls u = some (some now)) ∧
    (∀ u, u ∉ urls →
      dictGet (mark_articles_sent tr urls now).1.sent_urls u = dictGet tr.sent_urls u) := by
  refine ⟨rfl, rfl, ?_, ?_⟩
  · intro u hu
    simp [mark_articles_sent, dictGet_foldl_insert, hu]
  · intro u hu
    simp [mark_articles_sent, dictGet_foldl_insert, hu]

/-- C8: every URL of one `mark_articles_sent` batch is assigned the
identical timestamp (the current time is read once before the loop), so all
members of a batch expire together. -/
theorem mark_articles_sent_uniform_timestamp (tr : StateTracker)
    (urls : List String) (now : Time) (u v : String)
    (hu : u ∈ urls) (hv : v ∈ urls) :
    dictGet (mark_articles_sent tr urls now).1.sent_urls u = some (some now) ∧
    dictGet (mark_articles_sent tr urls now).1.sent_urls u
      = dictGet (mark_articles_sent tr urls now).1.sent_urls v := by
  simp [mark_articles_sent, dictGet_foldl_insert, hu, hv]

theorem mark_articles_sent_uniform_timestamp_witness :
    "https://x/a" ∈ ["https://x/a", "https://x/b"] ∧
    "https://x/b" ∈ ["https://x/a", "https://x/b"] ∧
    (dictGet (mark_articles_sent ⟨[]⟩ ["https://x/a", "https://x/b"] 0).1.sent_urls "https://x/a"
        = some (some 0) ∧
      dictGet (mark_articles_sent ⟨[]⟩ ["https://x/a", "https://x/b"] 0).1.sent_urls "https://x/a"
        = dictGet (mark_articles_sent ⟨[]⟩ ["https://x/a", "https://x/b"] 0).1.sent_urls
            "https://x/b") :=
  ⟨by decide, by decide,
   mark_articles_sent_uniform_timestamp ⟨[]⟩ ["https://x/a", "https://x/b"] 0
     "https://x/a" "https://x/b" (by decide) (by decide)⟩

/-- C9: if any record's timestamp string fails ISO-8601 parsing, loading a
parsed tracker file discards the entire ledger, including valid unexpired
records. -/
theorem tracker_corrupt_timestamp_discards_whole_ledger (data : TrackerData) (now : Time)
    (hbad : ∃ p ∈ data, p.2 = none) :
    load_sent_articles (.parsed data) now = [] := by
  simp [load_sent_articles, pruneRecords_error (now - 30 * day) data hbad]

theorem tracker_corrupt_timestamp_discards_whole_ledger_witness :
    (∃ p ∈ [("https://x/a", (some (100 * day) : TimeStr)), ("https://x/b", none)],
      Prod.snd p = none) ∧
    load_sent_articles
        (.parsed [("https://x/a", some (100 * day)), ("https://x/b", none)]) (100 * day)
      = [] :=
  ⟨by decide,
   tracker_corrupt_timestamp_discards_whole_ledger
     [("https://x/a", some (100 * day)), ("https://x/b", none)] (100 * day) (by decide)⟩

end AINews
